import Mathlib

/-!
# Verification of `make_ld_matrix.py`

A shallow embedding of the core matrix-assembly pipeline of
`make_ld_matrix.py`: reference index building (lines 41-44), chunked
reading of the pairwise LD table (line 52), per-chunk index resolution
and filtering (lines 57-63), accumulation across chunks (lines 55-64),
first-seen deduplication (lines 68-71), the lower-triangular text export
(lines 74-86) and the Matlab sparse export (lines 89-94).

Machine reals (`numpy.float64` correlation values) are modelled as `ℚ`;
the program never does arithmetic on them (they are carried through
verbatim; the only additions performed are `v + 0` inside the sparse
accumulation of `scipy.sparse.csr_matrix`, which is exact), so `ℚ` is a
faithful carrier for every value the program manipulates.
-/

namespace LdMat

/-- One row of the pairwise LD table (`CHR_A BP_A CHR_B BP_B R2` columns,
as consumed at lines 57-62). -/
structure LdRecord where
  chrA : Nat
  bpA : Nat
  chrB : Nat
  bpB : Nat
  r2 : ℚ
deriving DecidableEq

/-- One row of `total_df` (lines 63-64): a pair of resolved reference
indices plus the correlation value. -/
structure Triplet where
  id1 : Nat
  id2 : Nat
  val : ℚ
deriving DecidableEq

/-- The reference table (line 41): the ordered list of `(CHR, BP)` pairs;
the implicit dense index of a row is its position in the list. -/
abbrev RefTable := List (Nat × Nat)

/-- Line 43: `chrpos_to_id = dict([((chr, pos), index) for ...])`.
A Python dict built from a key/value list keeps, for every key, the value
attached to its *last* occurrence, hence the `getLast?`. -/
def chrposToId (ref : RefTable) (key : Nat × Nat) : Option Nat :=
  ((ref.enum.filter (fun p => p.2 == key)).getLast?).map Prod.fst

/-- Line 44: the check `len(chrpos_to_id) != nsnp`.  The dict has one
entry per distinct `(CHR, BP)` key, so its size is the number of distinct
keys, i.e. `ref.dedup.length`. -/
def refHasDupKeys (ref : RefTable) : Bool :=
  ref.dedup.length != ref.length

/-- Lines 57-62 applied to a single record: resolve both endpoints
through `chrpos_to_id` (`.get` returning `None` on absence); the record
survives the `mask` filter iff both lookups succeed. -/
def mkTriplet? (lk : Nat × Nat → Option Nat) (r : LdRecord) : Option Triplet :=
  match lk (r.chrA, r.bpA), lk (r.chrB, r.bpB) with
  | some i1, some i2 => some ⟨i1, i2, r.r2⟩
  | _, _ => none

/-- Lines 57-63: the per-chunk resolve/mask/filter comprehension.  The
three masked comprehensions build exactly the rows of `df_tmp`, i.e. one
triplet per record whose two endpoints both resolve. -/
def resolveChunk (lk : Nat × Nat → Option Nat) (df : List LdRecord) : List Triplet :=
  df.filterMap (mkTriplet? lk)

/-- Helper for `chunkList`; the fuel argument (an upper bound on the list
length) only makes the recursion structural. -/
def chunkListGo {α : Type} (c : Nat) : Nat → List α → List (List α)
  | 0, _ => []
  | _, [] => []
  | fuel + 1, a :: tl => (a :: tl).take c :: chunkListGo c fuel ((a :: tl).drop c)

/-- Line 52: `pd.read_csv(..., chunksize=args.chunksize)` splits the
table into consecutive chunks of `c` rows (the last one possibly
shorter); an empty table yields no chunks.  (pandas rejects
`chunksize=0`; the `c = 0` case is never exercised.) -/
def chunkList {α : Type} (c : Nat) (l : List α) : List (List α) :=
  chunkListGo c l.length l

/-- Lines 55-64: the chunk loop.  `total_df` starts as the `None`
sentinel and becomes the concatenation, in stream order, of the resolved
chunks; with zero chunks it stays `None`. -/
def accumulate (lk : Nat × Nat → Option Nat) (chunks : List (List LdRecord)) :
    Option (List Triplet) :=
  chunks.foldl (fun acc df =>
    match acc with
    | none => some (resolveChunk lk df)
    | some t => some (t ++ resolveChunk lk df)) none

/-- The dedup key of line 70: the ordered pair `(id1, id2)`. -/
def keyOf (t : Triplet) : Nat × Nat := (t.id1, t.id2)

/-- Helper for `drop_duplicates`: drop every triplet whose key was
already seen, scanning left to right. -/
def dropDupGo (seen : List (Nat × Nat)) : List Triplet → List Triplet
  | [] => []
  | t :: ts =>
    if keyOf t ∈ seen then dropDupGo seen ts
    else t :: dropDupGo (keyOf t :: seen) ts

/-- Line 70: `drop_duplicates(subset=['id1','id2'], keep='first')` —
keep only the first-seen triplet for every distinct `(id1, id2)` pair,
preserving order. -/
def drop_duplicates (l : List Triplet) : List Triplet := dropDupGo [] l

/-- The pipeline's fatal errors, by the Python exception each models. -/
inductive PipeError where
  /-- Line 37: `ValueError` when neither output is requested. -/
  | noOutputRequested
  /-- Line 44: `ValueError` on duplicated `CHR:POS` pairs in the reference. -/
  | duplicatedRefKeys
  /-- Line 52: the `FileNotFoundError` raised by `pd.read_csv` when the
  LD file (supplied, or the `tmp.ld.gz` the external tool should have
  produced) does not exist. -/
  | ldFileMissing
  /-- Line 69: the `AttributeError` on `None.shape` when the reader
  yielded zero chunks and `total_df` was never initialised. -/
  | totalDfIsNone
  /-- Line 78: the `AssertionError` from `assert(all(i < j ...))`. -/
  | assertionFailed
deriving DecidableEq

/-- Line 78: `assert(all([(i < j) for (i, j) in zip(id1, id2)]))`. -/
def ltmCheck (t : List Triplet) : Bool :=
  t.all (fun u => u.id1 < u.id2)

/-- Line 79: the entry of `csr = csr_matrix((val, (id2, id1)))` at
`[i, j]`.  scipy sums data entries that share a coordinate pair, hence
the `sum` (after dedup each coordinate occurs at most once, so the sum
has at most one addend). -/
def csrEntry (t : List Triplet) (i j : Nat) : ℚ :=
  ((t.filter (fun u => u.id2 == i && u.id1 == j)).map Triplet.val).sum

/-- Smallest `k` with `den ∣ 10 ^ k` (for `den` of the form `2^a * 5^b`;
such a `k` is at most `den`). -/
def decExp (den : Nat) : Nat :=
  (((List.range (den + 1)).find? (fun k => 10 ^ k % den == 0)).getD den)

/-- Models Python's `str` on a `numpy.float64` value (line 85's
`str(x)`): numpy prints the shortest decimal string that round-trips
through the float, always with at least one fractional digit (`0.0`,
`0.5`, `0.9`, ...).  For a rational whose denominator divides a power of
ten and whose shortest decimal form the float equals — which covers
every value this development evaluates the renderer on — that string is
the exact decimal expansion with no trailing fractional zeros, produced
here. -/
def pyFloatStr (q : ℚ) : String :=
  let k := decExp q.den
  let m := q.num.natAbs * (10 ^ k / q.den)
  let ds := (toString m).data
  let ds := if ds.length < k + 1 then List.replicate (k + 1 - ds.length) '0' ++ ds else ds
  (if q < 0 then "-" else "") ++
    String.mk (ds.take (ds.length - k)) ++
    (if k = 0 then ".0" else "." ++ String.mk (ds.drop (ds.length - k)))

/-- Lines 81-86: the lines of the lower-triangular text file.  The first
line is the literal `1.0`; for `i = 1 .. nsnp-1` the line holds
`csr[i, 0..i-1]` tab-joined, then a tab and `1.0`. -/
def ltmLines (nsnp : Nat) (t : List Triplet) : List String :=
  "1.0" :: (List.range' 1 (nsnp - 1)).map (fun i =>
    String.intercalate "\t" ((List.range i).map (fun j => pyFloatStr (csrEntry t i j)))
      ++ "\t1.0")

/-- Lines 74-86: the `--saveltm` branch: the assert of line 78 runs
first; only if it passes are the matrix and the file produced (an
`error` result models the abort with no file written). -/
def saveltmExport (nsnp : Nat) (t : List Triplet) : Except PipeError (List String) :=
  if ltmCheck t then .ok (ltmLines nsnp t) else .error .assertionFailed

/-- Lines 92-94: the fields of the saved `.mat` container: both index
columns shifted to 1-based, the values verbatim, and `nsnp`. -/
def savematExport (nsnp : Nat) (t : List Triplet) :
    List Nat × List Nat × List ℚ × Nat :=
  (t.map (fun u => u.id1 + 1), t.map (fun u => u.id2 + 1), t.map Triplet.val, nsnp)

/-- The configuration surface of `make_ld_matrix` that the core pipeline
consults: which outputs were requested (`--savemat` / `--saveltm`),
whether `--ldfile` was supplied (line 46), and `--chunksize`. -/
structure Config where
  savemat : Bool
  saveltm : Bool
  ldfileGiven : Bool
  chunksize : Nat

/-- The program's environment: the parsed reference rows, the outcome of
the external plink invocation (exit status and merged stdout/stderr —
`execute_command` merges stderr into stdout at line 17 and prints it at
line 18), the state of `tmp.ld.gz` after that invocation, and the
contents of a user-supplied `--ldfile` (`none` = file absent). -/
structure World where
  refRows : RefTable
  extExitCode : Nat
  extOutput : String
  tmpLd : Option (List LdRecord)
  ldfileRecords : Option (List LdRecord)

/-- What a successful run leaves on disk: the lower-triangular text file
(as its list of lines) and/or the `.mat` container fields. -/
structure Output where
  ltm : Option (List String)
  mat : Option (List Nat × List Nat × List ℚ × Nat)
deriving DecidableEq

/-- Lines 46-52: obtaining the LD records.  With `--ldfile` given, the
supplied file is read; otherwise `execute_command` invokes plink,
printing the command line and the merged stdout/stderr (line 16-18) —
the exit status of that invocation is never consulted — after which
`tmp.ld.gz` is read.  The second component is the file's records, `none`
when the file does not exist. -/
def acquireRecords (cfg : Config) (w : World) :
    List String × Option (List LdRecord) :=
  if cfg.ldfileGiven then (["Reading ref..."], w.ldfileRecords)
  else (["Reading ref...", "Execute command: plink --r2", w.extOutput], w.tmpLd)

/-- Lines 35-71 of `make_ld_matrix`: the output-request check of line 36
(which fires before anything is read), reference reading and duplicate
detection (lines 40-44), LD-record acquisition, chunked reading and
accumulation (lines 52-66), and deduplication with its printed count
(lines 68-71). -/
def runPipeline (cfg : Config) (w : World) :
    List String × Except PipeError (Nat × List Triplet × Nat) :=
  if !cfg.savemat && !cfg.saveltm then ([], .error .noOutputRequested)
  else if refHasDupKeys w.refRows then
    (["Reading ref..."], .error .duplicatedRefKeys)
  else
    match (acquireRecords cfg w).2 with
    | none => ((acquireRecords cfg w).1, .error .ldFileMissing)
    | some records =>
      match accumulate (chrposToId w.refRows) (chunkList cfg.chunksize records) with
      | none => ((acquireRecords cfg w).1, .error .totalDfIsNone)
      | some totalDf =>
        ((acquireRecords cfg w).1 ++
            ["Drop " ++ toString (totalDf.length - (drop_duplicates totalDf).length)
              ++ " duplicated entries"],
          .ok (w.refRows.length, drop_duplicates totalDf,
            totalDf.length - (drop_duplicates totalDf).length))

/-- The final deduplicated triplet collection the Matrix Materializer
consumes (the `total_df` of line 70 after dedup). -/
def dedupedCollection (cfg : Config) (w : World) : Except PipeError (List Triplet) :=
  (runPipeline cfg w).2.map (fun r => r.2.1)

/-- Lines 35-94: the whole of `make_ld_matrix`.  After the pipeline, the
`--saveltm` branch runs before the `--savemat` branch, and its assert
aborts the process before either file is written. -/
def make_ld_matrix (cfg : Config) (w : World) :
    List String × Except PipeError Output :=
  match runPipeline cfg w with
  | (log, .error e) => (log, .error e)
  | (log, .ok (nsnp, deduped, _)) =>
    if cfg.saveltm && !ltmCheck deduped then (log, .error .assertionFailed)
    else
      (log, .ok ⟨if cfg.saveltm then some (ltmLines nsnp deduped) else none,
        if cfg.savemat then some (savematExport nsnp deduped) else none⟩)

/-- Spec-side description of the logical matrix entry: the value stored
for the ordered pair `(j, i)`, or `0` when the pair is absent. -/
def storedValue (t : List Triplet) (j i : Nat) : ℚ :=
  ((t.find? (fun u => u.id1 == j && u.id2 == i)).map Triplet.val).getD 0

/-- Whether a record's two endpoints are both present in the reference. -/
def bothPresent (lk : Nat × Nat → Option Nat) (r : LdRecord) : Bool :=
  (lk (r.chrA, r.bpA)).isSome && (lk (r.chrB, r.bpB)).isSome

/-- Whether a record resolves to the index pair `k`. -/
def resolvesTo (lk : Nat × Nat → Option Nat) (r : LdRecord) (k : Nat × Nat) : Bool :=
  match mkTriplet? lk r with
  | some t => keyOf t == k
  | none => false

/-- The round-trip scenario of the spec: four reference variants. -/
def scenarioRef : RefTable := [(1, 100), (1, 200), (1, 300), (1, 400)]

/-- The round-trip scenario's pairwise records, the duplicate of the
`(1,100)-(1,200)` pair (with a different value) appearing last. -/
def scenarioRecords : List LdRecord :=
  [⟨1, 100, 1, 200, mkRat 1 2⟩, ⟨1, 100, 1, 300, mkRat 9 10⟩,
   ⟨1, 200, 1, 300, mkRat 1 5⟩, ⟨1, 100, 1, 200, mkRat 99 100⟩]

/-- Scenario configuration: both exports requested, LD file supplied,
default chunk size. -/
def scenarioCfg : Config := ⟨true, true, true, 100000⟩

/-- Scenario environment: the supplied LD file holds the four records. -/
def scenarioWorld : World := ⟨scenarioRef, 0, "", none, some scenarioRecords⟩

/-- A configuration with no `--ldfile` (so plink is invoked) and only the
`--savemat` output. -/
def noLdfileCfg : Config := ⟨true, false, false, 1⟩

/-- An environment in which the plink invocation exits with status 1 —
printing an error — yet a (stale or partial) `tmp.ld.gz` exists. -/
def failedPlinkWorld : World :=
  ⟨[(1, 100), (1, 200)], 1, "plink terminated with an error",
   some [⟨1, 100, 1, 200, mkRat 1 2⟩], none⟩

/-- An environment in which the plink invocation fails and leaves no
`tmp.ld.gz` behind. -/
def missingTmpWorld : World :=
  ⟨[(1, 100), (1, 200)], 1, "plink terminated with an error", none, none⟩

/-- The `total_df` the scenario accumulates before dedup: all four
records resolve, in stream order. -/
def scenarioTotal : List Triplet :=
  [⟨0, 1, mkRat 1 2⟩, ⟨0, 2, mkRat 9 10⟩, ⟨1, 2, mkRat 1 5⟩,
   ⟨0, 1, mkRat 99 100⟩]

/-! ## Resolution lemmas -/

/-- `mkTriplet?` succeeds exactly on records with both endpoints present. -/
theorem mkTriplet?_isSome (lk : Nat × Nat → Option Nat) (r : LdRecord) :
    (mkTriplet? lk r).isSome = bothPresent lk r := by
  unfold mkTriplet? bothPresent
  cases lk (r.chrA, r.bpA) <;> cases lk (r.chrB, r.bpB) <;> rfl

/-- A resolved triplet carries the record's correlation value verbatim. -/
theorem mkTriplet?_val {lk : Nat × Nat → Option Nat} {r : LdRecord} {t : Triplet}
    (h : mkTriplet? lk r = some t) : t.val = r.r2 := by
  unfold mkTriplet? at h
  cases h1 : lk (r.chrA, r.bpA) <;> cases h2 : lk (r.chrB, r.bpB) <;>
    rw [h1, h2] at h <;> cases h <;> rfl

theorem resolveChunk_nil (lk : Nat × Nat → Option Nat) : resolveChunk lk [] = [] := rfl

theorem resolveChunk_append (lk : Nat × Nat → Option Nat) (l₁ l₂ : List LdRecord) :
    resolveChunk lk (l₁ ++ l₂) = resolveChunk lk l₁ ++ resolveChunk lk l₂ :=
  List.filterMap_append l₁ l₂ (mkTriplet? lk)

/-- Per-record reading of the resolver: each record contributes its own
(zero- or one-element) emission, in order. -/
theorem resolveChunk_eq_join (lk : Nat × Nat → Option Nat) (df : List LdRecord) :
    resolveChunk lk df = (df.map (fun r => resolveChunk lk [r])).flatten := by
  induction df with
  | nil => rfl
  | cons a l ih =>
    simp only [List.map_cons, List.flatten_cons, ← ih]
    unfold resolveChunk
    simp only [List.filterMap_cons]
    cases mkTriplet? lk a <;> simp

/-- The resolver emits exactly one triplet per record with both endpoints
present. -/
theorem resolveChunk_length (lk : Nat × Nat → Option Nat) (df : List LdRecord) :
    (resolveChunk lk df).length = df.countP (bothPresent lk) := by
  induction df with
  | nil => rfl
  | cons a l ih =>
    unfold resolveChunk at *
    rw [List.filterMap_cons, List.countP_cons, ← mkTriplet?_isSome lk a]
    cases h : mkTriplet? lk a <;> simp [h, ih]

theorem resolveChunk_countP (lk : Nat × Nat → Option Nat) (df : List LdRecord)
    (k : Nat × Nat) :
    (resolveChunk lk df).countP (fun t => keyOf t == k)
      = df.countP (fun r => resolvesTo lk r k) := by
  induction df with
  | nil => rfl
  | cons a l ih =>
    unfold resolveChunk at *
    rw [List.filterMap_cons, List.countP_cons, resolvesTo]
    cases h : mkTriplet? lk a with
    | none => simp [ih]
    | some t => rw [List.countP_cons]; simp [ih]

theorem resolveChunk_find? (lk : Nat × Nat → Option Nat) (df : List LdRecord)
    (k : Nat × Nat) :
    (resolveChunk lk df).find? (fun t => keyOf t == k)
      = (df.find? (fun r => resolvesTo lk r k)).bind (mkTriplet? lk) := by
  induction df with
  | nil => rfl
  | cons a l ih =>
    unfold resolveChunk at *
    rw [List.filterMap_cons]
    cases h : mkTriplet? lk a with
    | none =>
      have hres : resolvesTo lk a k = false := by rw [resolvesTo, h]
      simp only [List.find?_cons, hres, cond_false, ih]
    | some t =>
      have hres : resolvesTo lk a k = (keyOf t == k) := by rw [resolvesTo, h]
      cases hk : (keyOf t == k) with
      | true =>
        simp only [List.find?_cons, hres, hk, cond_true, Option.some_bind, h]
      | false => simp only [List.find?_cons, hres, hk, cond_false, ih]

/-! ## Chunking and accumulation lemmas -/

theorem chunkListGo_join {α : Type} (c : Nat) (hc : 0 < c) :
    ∀ (fuel : Nat) (l : List α), l.length ≤ fuel → (chunkListGo c fuel l).flatten = l := by
  intro fuel
  induction fuel with
  | zero =>
    intro l hl
    rw [List.length_eq_zero.mp (Nat.le_zero.mp hl)]
    rfl
  | succ n ih =>
    intro l hl
    match l with
    | [] => rfl
    | a :: tl =>
      rw [chunkListGo, List.flatten_cons, ih _ (by simp at hl ⊢; omega),
        List.take_append_drop]

theorem chunkList_join {α : Type} (c : Nat) (hc : 0 < c) (l : List α) :
    (chunkList c l).flatten = l :=
  chunkListGo_join c hc l.length l (Nat.le_refl _)

theorem chunkList_nil {α : Type} (c : Nat) : chunkList c ([] : List α) = [] := rfl

theorem chunkList_cons {α : Type} (c : Nat) (a : α) (tl : List α) :
    chunkList c (a :: tl)
      = (a :: tl).take c :: chunkListGo c tl.length ((a :: tl).drop c) := rfl

theorem accumulate_some (lk : Nat × Nat → Option Nat) :
    ∀ (chunks : List (List LdRecord)) (t : List Triplet),
      chunks.foldl (fun acc df =>
        match acc with
        | none => some (resolveChunk lk df)
        | some t => some (t ++ resolveChunk lk df)) (some t)
      = some (t ++ resolveChunk lk chunks.flatten) := by
  intro chunks
  induction chunks with
  | nil => intro t; simp [resolveChunk_nil]
  | cons c cs ih =>
    intro t
    simp only [List.foldl_cons, List.flatten_cons, ih, resolveChunk_append,
      List.append_assoc]

/-- With at least one chunk, `total_df` is the resolution of the whole
record stream, in stream order. -/
theorem accumulate_eq_of_ne_nil (lk : Nat × Nat → Option Nat)
    {chunks : List (List LdRecord)} (h : chunks ≠ []) :
    accumulate lk chunks = some (resolveChunk lk chunks.flatten) := by
  match chunks with
  | [] => exact absurd rfl h
  | c :: cs =>
    unfold accumulate
    simp only [List.foldl_cons, accumulate_some, List.flatten_cons,
      resolveChunk_append]

/-- With zero chunks, `total_df` keeps its `None` sentinel. -/
theorem accumulate_nil (lk : Nat × Nat → Option Nat) : accumulate lk [] = none := rfl

/-- Chunked processing collapses: for any positive chunk size the
accumulated `total_df` is `None` on an empty stream and the resolution of
the whole stream otherwise. -/
theorem accumulate_chunkList (lk : Nat × Nat → Option Nat) {c : Nat} (hc : 0 < c)
    (l : List LdRecord) :
    accumulate lk (chunkList c l)
      = if l = [] then none else some (resolveChunk lk l) := by
  match l with
  | [] => rfl
  | a :: tl =>
    rw [if_neg (List.cons_ne_nil a tl),
      accumulate_eq_of_ne_nil lk (by rw [chunkList_cons]; exact List.cons_ne_nil _ _),
      chunkList_join c hc]

/-! ## Deduplication lemmas -/

theorem dropDupGo_countP (k : Nat × Nat) :
    ∀ (l : List Triplet) (seen : List (Nat × Nat)),
      (dropDupGo seen l).countP (fun t => keyOf t == k)
        = if k ∈ seen then 0 else min 1 (l.countP (fun t => keyOf t == k)) := by
  intro l
  induction l with
  | nil =>
    intro seen
    simp only [dropDupGo, List.countP_nil]
    split <;> rfl
  | cons t ts ih =>
    intro seen
    rw [dropDupGo]
    by_cases hm : keyOf t ∈ seen
    · rw [if_pos hm, ih, List.countP_cons]
      by_cases hk : k ∈ seen
      · rw [if_pos hk, if_pos hk]
      · have hne : (keyOf t == k) = false := by
          simp only [beq_eq_false_iff_ne, ne_eq]
          rintro rfl
          exact hk hm
        rw [if_neg hk, if_neg hk]
        simp [hne]
    · rw [if_neg hm, List.countP_cons, List.countP_cons, ih]
      by_cases hk : k ∈ seen
      · have hne : (keyOf t == k) = false := by
          simp only [beq_eq_false_iff_ne, ne_eq]
          rintro rfl
          exact hm hk
        rw [if_pos (List.mem_cons_of_mem _ hk), if_pos hk]
        simp [hne]
      · by_cases ht : keyOf t = k
        · rw [if_pos (by rw [ht]; exact List.mem_cons_self _ _), if_neg hk]
          simp only [ht, beq_self_eq_true, if_true]
          omega
        · have hk2 : k ∉ keyOf t :: seen := by
            intro hmem
            rcases List.mem_cons.mp hmem with h | h
            · exact ht h.symm
            · exact hk h
          have hne : (keyOf t == k) = false := beq_eq_false_iff_ne.mpr ht
          rw [if_neg hk2, if_neg hk]
          simp [hne]

theorem dropDupGo_find? (k : Nat × Nat) :
    ∀ (l : List Triplet) (seen : List (Nat × Nat)), k ∉ seen →
      (dropDupGo seen l).find? (fun t => keyOf t == k)
        = l.find? (fun t => keyOf t == k) := by
  intro l
  induction l with
  | nil => intro seen _; rfl
  | cons t ts ih =>
    intro seen hk
    rw [dropDupGo]
    by_cases hm : keyOf t ∈ seen
    · have hne : (keyOf t == k) = false := by
        simp only [beq_eq_false_iff_ne, ne_eq]
        rintro rfl
        exact hk hm
      rw [if_pos hm, ih seen hk]
      simp [List.find?_cons, hne]
    · rw [if_neg hm]
      by_cases ht : keyOf t = k
      · simp [List.find?_cons, ht]
      · have hne : (keyOf t == k) = false := beq_eq_false_iff_ne.mpr ht
        have hk2 : k ∉ keyOf t :: seen := by
          intro hmem
          rcases List.mem_cons.mp hmem with h | h
          · exact ht h.symm
          · exact hk h
        simp only [List.find?_cons, hne, cond_false]
        exact ih _ hk2

/-- After dedup every `(id1, id2)` pair occurs at most once: exactly once
when the input held it at all, never otherwise. -/
theorem drop_duplicates_countP (l : List Triplet) (k : Nat × Nat) :
    (drop_duplicates l).countP (fun t => keyOf t == k)
      = min 1 (l.countP (fun t => keyOf t == k)) := by
  rw [drop_duplicates, dropDupGo_countP k l [], if_neg (List.not_mem_nil k)]

/-- Dedup is first-seen-wins: for every pair the surviving triplet is the
first one in the accumulated stream. -/
theorem drop_duplicates_find? (l : List Triplet) (k : Nat × Nat) :
    (drop_duplicates l).find? (fun t => keyOf t == k)
      = l.find? (fun t => keyOf t == k) :=
  dropDupGo_find? k l [] (List.not_mem_nil k)

/-! ## Reference-index lemmas -/

theorem enumFrom_filter_of_not_mem {x : Nat × Nat} :
    ∀ (l : List (Nat × Nat)) (n : Nat), x ∉ l →
      (List.enumFrom n l).filter (fun p => p.2 == x) = [] := by
  intro l
  induction l with
  | nil => intro n _; rfl
  | cons a tl ih =>
    intro n hx
    have hax : (a == x) = false := by
      apply beq_eq_false_iff_ne.mpr
      intro h
      exact hx (h ▸ List.mem_cons_self a tl)
    simp only [List.enumFrom, List.filter_cons, hax]
    exact ih (n + 1) (fun h => hx (List.mem_cons_of_mem a h))

theorem enumFrom_filter_get :
    ∀ (l : List (Nat × Nat)), l.Nodup →
      ∀ (n i : Nat) (hi : i < l.length),
        (List.enumFrom n l).filter (fun p => p.2 == l.get ⟨i, hi⟩)
          = [(n + i, l.get ⟨i, hi⟩)] := by
  intro l
  induction l with
  | nil => intro _ n i hi; exact absurd hi (by simp)
  | cons a tl ih =>
    intro hnd n i hi
    obtain ⟨ha, htl⟩ := List.nodup_cons.mp hnd
    match i with
    | 0 =>
      show (List.enumFrom n (a :: tl)).filter (fun p => p.2 == a) = [(n + 0, a)]
      simp only [List.enumFrom, List.filter_cons, beq_self_eq_true,
        enumFrom_filter_of_not_mem tl (n + 1) ha, Nat.add_zero]
      simp
    | Nat.succ j =>
      have hj : j < tl.length := by simpa using hi
      show (List.enumFrom n (a :: tl)).filter (fun p => p.2 == tl.get ⟨j, hj⟩)
        = [(n + (j + 1), tl.get ⟨j, hj⟩)]
      have hane : (a == tl.get ⟨j, hj⟩) = false := by
        apply beq_eq_false_iff_ne.mpr
        intro h
        exact ha (h ▸ List.get_mem tl j hj)
      simp only [List.enumFrom, List.filter_cons, hane]
      rw [ih htl (n + 1) j hj]
      have heq : n + 1 + j = n + (j + 1) := by omega
      rw [heq]
      simp

/-- Under a duplicate-free reference, the dict of line 43 maps the key of
row `i` back to `i`. -/
theorem chrposToId_get {ref : RefTable} (hnd : ref.Nodup) (i : Nat)
    (hi : i < ref.length) :
    chrposToId ref (ref.get ⟨i, hi⟩) = some i := by
  rw [chrposToId]
  have henum : ref.enum = List.enumFrom 0 ref := rfl
  rw [henum, enumFrom_filter_get ref hnd 0 i hi]
  simp

/-- The line 44 check fires exactly when the reference rows are not
duplicate-free. -/
theorem refHasDupKeys_iff_not_nodup (ref : RefTable) :
    refHasDupKeys ref = true ↔ ¬ ref.Nodup := by
  rw [refHasDupKeys, bne_iff_ne, ne_eq]
  constructor
  · intro h hnd
    exact h (by rw [List.dedup_eq_self.mpr hnd])
  · intro h hlen
    exact h (by
      have heq := (List.dedup_sublist ref).eq_of_length hlen
      rw [← heq]
      exact List.nodup_dedup ref)

theorem not_nodup_iff_repeat (ref : RefTable) :
    ¬ ref.Nodup ↔ ∃ i j : Fin ref.length, i ≠ j ∧ ref.get i = ref.get j := by
  rw [List.nodup_iff_injective_get]
  constructor
  · intro h
    by_contra hc
    push_neg at hc
    exact h fun a b hab => by_contra fun hne => hc a b hne hab
  · rintro ⟨i, j, hne, heq⟩ hinj
    exact hne (hinj heq)

/-! ## csr-matrix lemmas -/

theorem filter_key_eq_nil {ts : List Triplet} {i j : Nat}
    (h : (j, i) ∉ ts.map keyOf) :
    ts.filter (fun u => u.id2 == i && u.id1 == j) = [] := by
  rw [List.filter_eq_nil]
  intro u hu
  simp only [Bool.and_eq_true, beq_iff_eq, not_and]
  intro h2 h1
  exact h (List.mem_map.mpr ⟨u, hu, by rw [keyOf, h1, h2]⟩)

/-- On a collection with pairwise-distinct `(id1, id2)` keys (as after
dedup), the `csr[i, j]` entry is the value stored for the pair `(j, i)`,
or `0` when that pair is absent. -/
theorem csrEntry_eq_storedValue (i j : Nat) :
    ∀ (t : List Triplet), (t.map keyOf).Nodup →
      csrEntry t i j = storedValue t j i := by
  intro t
  induction t with
  | nil => intro _; rfl
  | cons u ts ih =>
    intro hnd
    rw [List.map_cons, List.nodup_cons] at hnd
    obtain ⟨hu, hts⟩ := hnd
    by_cases hkey : u.id1 = j ∧ u.id2 = i
    · have hp1 : (u.id2 == i && u.id1 == j) = true := by
        simp [hkey.1, hkey.2]
      have hp2 : (u.id1 == j && u.id2 == i) = true := by
        simp [hkey.1, hkey.2]
      have hnil : ts.filter (fun v => v.id2 == i && v.id1 == j) = [] := by
        apply filter_key_eq_nil
        have : keyOf u = (j, i) := by rw [keyOf, hkey.1, hkey.2]
        rw [← this]
        exact hu
      rw [csrEntry, storedValue]
      simp only [List.filter_cons, List.find?_cons, hp1, hp2, cond_true,
        if_true, hnil]
      simp
    · have hp1 : (u.id2 == i && u.id1 == j) = false := by
        cases h2 : (u.id2 == i) <;> cases h1 : (u.id1 == j) <;>
          simp_all [beq_iff_eq]
      have hp2 : (u.id1 == j && u.id2 == i) = false := by
        cases h2 : (u.id2 == i) <;> cases h1 : (u.id1 == j) <;>
          simp_all [beq_iff_eq]
      simp only [csrEntry, storedValue, List.filter_cons, List.find?_cons, hp1,
        hp2, cond_false, if_false]
      exact ih hts

/-! ## Pipeline plumbing lemmas -/

theorem make_ld_matrix_fst (cfg : Config) (w : World) :
    (make_ld_matrix cfg w).1 = (runPipeline cfg w).1 := by
  rcases h : runPipeline cfg w with ⟨log, res⟩
  cases res with
  | error e => simp [make_ld_matrix, h]
  | ok v =>
    rcases v with ⟨n, t, d⟩
    simp only [make_ld_matrix, h]
    split <;> rfl

theorem make_ld_matrix_of_err {cfg : Config} {w : World} {e : PipeError}
    (h : (runPipeline cfg w).2 = .error e) :
    (make_ld_matrix cfg w).2 = .error e := by
  rcases hp : runPipeline cfg w with ⟨log, res⟩
  rw [hp] at h
  dsimp only at h
  subst h
  simp [make_ld_matrix, hp]

theorem make_ld_matrix_of_ok_assert {cfg : Config} {w : World} {n : Nat}
    {t : List Triplet} {d : Nat}
    (h : (runPipeline cfg w).2 = .ok (n, t, d)) (hsl : cfg.saveltm = true)
    (hchk : ltmCheck t = false) :
    (make_ld_matrix cfg w).2 = .error .assertionFailed := by
  rcases hp : runPipeline cfg w with ⟨log, res⟩
  rw [hp] at h
  dsimp only at h
  subst h
  simp [make_ld_matrix, hp, hsl, hchk]

theorem make_ld_matrix_of_ok_pass {cfg : Config} {w : World} {n : Nat}
    {t : List Triplet} {d : Nat}
    (h : (runPipeline cfg w).2 = .ok (n, t, d))
    (hpass : (cfg.saveltm && !ltmCheck t) = false) :
    (make_ld_matrix cfg w).2 = .ok
      ⟨if cfg.saveltm then some (ltmLines n t) else none,
       if cfg.savemat then some (savematExport n t) else none⟩ := by
  rcases hp : runPipeline cfg w with ⟨log, res⟩
  rw [hp] at h
  dsimp only at h
  subst h
  simp [make_ld_matrix, hp, hpass]

theorem acquireRecords_fst (cfg : Config) (w : World) :
    ∃ rest, (acquireRecords cfg w).1 = "Reading ref..." :: rest := by
  cases hld : cfg.ldfileGiven <;> simp [acquireRecords, hld]

/-! Branch-evaluation lemmas for `runPipeline`. -/

theorem runPipeline_eq_noOutput {cfg : Config} {w : World}
    (h : (!cfg.savemat && !cfg.saveltm) = true) :
    runPipeline cfg w = ([], .error .noOutputRequested) := by
  rw [runPipeline, if_pos h]

theorem runPipeline_eq_dupRef {cfg : Config} {w : World}
    (hout : (!cfg.savemat && !cfg.saveltm) = false)
    (hdup : refHasDupKeys w.refRows = true) :
    runPipeline cfg w = (["Reading ref..."], .error .duplicatedRefKeys) := by
  rw [runPipeline]
  simp [hout, hdup]

theorem runPipeline_eq_fileMissing {cfg : Config} {w : World}
    (hout : (!cfg.savemat && !cfg.saveltm) = false)
    (hdup : refHasDupKeys w.refRows = false)
    (hacq : (acquireRecords cfg w).2 = none) :
    runPipeline cfg w = ((acquireRecords cfg w).1, .error .ldFileMissing) := by
  rw [runPipeline]
  simp [hout, hdup, hacq]

theorem runPipeline_eq_noneTotal {cfg : Config} {w : World}
    {records : List LdRecord}
    (hout : (!cfg.savemat && !cfg.saveltm) = false)
    (hdup : refHasDupKeys w.refRows = false)
    (hacq : (acquireRecords cfg w).2 = some records)
    (hacc : accumulate (chrposToId w.refRows) (chunkList cfg.chunksize records)
      = none) :
    runPipeline cfg w = ((acquireRecords cfg w).1, .error .totalDfIsNone) := by
  rw [runPipeline]
  simp [hout, hdup, hacq, hacc]

theorem runPipeline_eq_ok {cfg : Config} {w : World} {records : List LdRecord}
    {totalDf : List Triplet}
    (hout : (!cfg.savemat && !cfg.saveltm) = false)
    (hdup : refHasDupKeys w.refRows = false)
    (hacq : (acquireRecords cfg w).2 = some records)
    (hacc : accumulate (chrposToId w.refRows) (chunkList cfg.chunksize records)
      = some totalDf) :
    runPipeline cfg w = ((acquireRecords cfg w).1 ++
        ["Drop " ++ toString (totalDf.length - (drop_duplicates totalDf).length)
          ++ " duplicated entries"],
      .ok (w.refRows.length, drop_duplicates totalDf,
        totalDf.length - (drop_duplicates totalDf).length)) := by
  rw [runPipeline]
  simp [hout, hdup, hacq, hacc]

/-- Whenever some output was requested the pipeline does not raise the
no-output error, and its printed output starts with the
reference-reading step. -/
theorem runPipeline_fst_of_requested {cfg : Config} {w : World}
    (hreq : (cfg.savemat || cfg.saveltm) = true) :
    (runPipeline cfg w).2 ≠ .error .noOutputRequested ∧
    ∃ rest, (runPipeline cfg w).1 = "Reading ref..." :: rest := by
  have hout : (!cfg.savemat && !cfg.saveltm) = false := by
    cases hsm : cfg.savemat <;> cases hsl : cfg.saveltm <;> simp_all
  obtain ⟨rest, hrest⟩ := acquireRecords_fst cfg w
  by_cases hdup : refHasDupKeys w.refRows = true
  · rw [runPipeline_eq_dupRef hout hdup]
    exact ⟨by simp, [], rfl⟩
  · have hdup2 : refHasDupKeys w.refRows = false := by
      revert hdup
      cases refHasDupKeys w.refRows <;> simp
    cases hacq : (acquireRecords cfg w).2 with
    | none =>
      rw [runPipeline_eq_fileMissing hout hdup2 hacq]
      exact ⟨by simp, rest, hrest⟩
    | some records =>
      cases hacc : accumulate (chrposToId w.refRows)
          (chunkList cfg.chunksize records) with
      | none =>
        rw [runPipeline_eq_noneTotal hout hdup2 hacq hacc]
        exact ⟨by simp, rest, hrest⟩
      | some totalDf =>
        rw [runPipeline_eq_ok hout hdup2 hacq hacc]
        refine ⟨by simp, rest ++ ["Drop " ++ toString (totalDf.length -
          (drop_duplicates totalDf).length) ++ " duplicated entries"], ?_⟩
        dsimp only
        rw [hrest, List.cons_append]

/-- Past the duplicate-reference check, the pipeline printed output
extends the acquisition log (so anything the external tool printed stays
visible, whatever happens later). -/
theorem runPipeline_fst_extends_acquire {cfg : Config} {w : World}
    (hreq : (cfg.savemat || cfg.saveltm) = true)
    (hdup : refHasDupKeys w.refRows = false) :
    ∃ rest, (runPipeline cfg w).1 = (acquireRecords cfg w).1 ++ rest := by
  have hout : (!cfg.savemat && !cfg.saveltm) = false := by
    cases hsm : cfg.savemat <;> cases hsl : cfg.saveltm <;> simp_all
  cases hacq : (acquireRecords cfg w).2 with
  | none =>
    rw [runPipeline_eq_fileMissing hout hdup hacq]
    exact ⟨[], by simp⟩
  | some records =>
    cases hacc : accumulate (chrposToId w.refRows)
        (chunkList cfg.chunksize records) with
    | none =>
      rw [runPipeline_eq_noneTotal hout hdup hacq hacc]
      exact ⟨[], by simp⟩
    | some totalDf =>
      rw [runPipeline_eq_ok hout hdup hacq hacc]
      exact ⟨["Drop " ++ toString (totalDf.length -
        (drop_duplicates totalDf).length) ++ " duplicated entries"], rfl⟩

/-- Elimination principle for a successful pipeline run: it recovers each
intermediate artefact of lines 35-71. -/
theorem runPipeline_ok_elim {cfg : Config} {w : World} {n : Nat}
    {t : List Triplet} {d : Nat}
    (h : (runPipeline cfg w).2 = .ok (n, t, d)) :
    n = w.refRows.length ∧ refHasDupKeys w.refRows = false ∧
    ∃ records totalDf,
      (acquireRecords cfg w).2 = some records ∧
      accumulate (chrposToId w.refRows) (chunkList cfg.chunksize records)
        = some totalDf ∧
      t = drop_duplicates totalDf ∧
      d = totalDf.length - (drop_duplicates totalDf).length := by
  have hout : (!cfg.savemat && !cfg.saveltm) = false := by
    cases hb : (!cfg.savemat && !cfg.saveltm)
    · rfl
    · rw [runPipeline_eq_noOutput hb] at h
      exact absurd h (by simp)
  have hdup : refHasDupKeys w.refRows = false := by
    cases hb : refHasDupKeys w.refRows
    · rfl
    · rw [runPipeline_eq_dupRef hout hb] at h
      exact absurd h (by simp)
  cases hacq : (acquireRecords cfg w).2 with
  | none =>
    rw [runPipeline_eq_fileMissing hout hdup hacq] at h
    exact absurd h (by simp)
  | some records =>
    cases hacc : accumulate (chrposToId w.refRows)
        (chunkList cfg.chunksize records) with
    | none =>
      rw [runPipeline_eq_noneTotal hout hdup hacq hacc] at h
      exact absurd h (by simp)
    | some totalDf =>
      rw [runPipeline_eq_ok hout hdup hacq hacc] at h
      dsimp only at h
      rw [Except.ok.injEq, Prod.mk.injEq, Prod.mk.injEq] at h
      obtain ⟨hn, ht, hd⟩ := h
      exact ⟨hn.symm, hdup, records, totalDf, rfl, hacc, ht.symm, hd.symm⟩

/-- A successful pipeline run reports the number of dropped duplicates in
its printed output (line 71). -/
theorem runPipeline_drop_reported {cfg : Config} {w : World} {n : Nat}
    {t : List Triplet} {d : Nat}
    (h : (runPipeline cfg w).2 = .ok (n, t, d)) :
    ("Drop " ++ toString d ++ " duplicated entries")
      ∈ (runPipeline cfg w).1 := by
  obtain ⟨-, hdup, records, totalDf, hacq, hacc, -, hd⟩ := runPipeline_ok_elim h
  have hout : (!cfg.savemat && !cfg.saveltm) = false := by
    cases hb : (!cfg.savemat && !cfg.saveltm)
    · rfl
    · rw [runPipeline_eq_noOutput hb] at h
      exact absurd h (by simp)
  rw [runPipeline_eq_ok hout hdup hacq hacc]
  dsimp only
  rw [hd]
  exact List.mem_append_right _ (List.mem_singleton.mpr rfl)

theorem length_sub_countP {α : Type} (p : α → Bool) (l : List α) :
    l.length - l.countP p = l.countP (fun r => !p r) := by
  induction l with
  | nil => rfl
  | cons a tl ih =>
    have hle : tl.countP p ≤ tl.length := List.countP_le_length p
    rw [List.countP_cons, List.countP_cons, List.length_cons]
    cases h : p a <;> simp [h] <;> omega

theorem make_ld_matrix_noOutput_iff (cfg : Config) (w : World) :
    (make_ld_matrix cfg w).2 = .error .noOutputRequested ↔
    (runPipeline cfg w).2 = .error .noOutputRequested := by
  rcases hp : runPipeline cfg w with ⟨log, res⟩
  cases res with
  | error e => simp [make_ld_matrix, hp]
  | ok v =>
    rcases v with ⟨n, t, d⟩
    simp only [make_ld_matrix, hp]
    split <;> simp

/-! ## The claims -/

/-- C7: reference-index building fails with the ConfigurationError of
line 44 exactly when some (chromosome, position) pair occurs at two
distinct reference rows — whatever the input size; when all pairs are
distinct the built dict maps the key of every row to that row's 0-based
position; a duplicated reference aborts any requested run with that
error; and on success the pipeline's `nsnp` is the reference row count. -/
theorem C7_ref_index (ref : RefTable) :
    (refHasDupKeys ref = true
      ↔ ∃ i j : Fin ref.length, i ≠ j ∧ ref.get i = ref.get j) ∧
    (refHasDupKeys ref = false →
      ∀ (i : Nat) (hi : i < ref.length),
        chrposToId ref (ref.get ⟨i, hi⟩) = some i) ∧
    (∀ (cfg : Config) (w : World), (cfg.savemat || cfg.saveltm) = true →
      refHasDupKeys w.refRows = true →
      (make_ld_matrix cfg w).2 = .error .duplicatedRefKeys) ∧
    (∀ (cfg : Config) (w : World) (n : Nat) (t : List Triplet) (d : Nat),
      (runPipeline cfg w).2 = .ok (n, t, d) → n = w.refRows.length) := by
  refine ⟨?_, ?_, ?_, ?_⟩
  · rw [refHasDupKeys_iff_not_nodup]
    exact not_nodup_iff_repeat ref
  · intro hdup i hi
    have hnd : ref.Nodup := by
      by_contra h
      rw [← refHasDupKeys_iff_not_nodup] at h
      rw [h] at hdup
      cases hdup

    exact chrposToId_get hnd i hi
  · intro cfg w hreq hdup
    have hout : (!cfg.savemat && !cfg.saveltm) = false := by
      cases hsm : cfg.savemat <;> cases hsl : cfg.saveltm <;> simp_all
    exact make_ld_matrix_of_err (by rw [runPipeline_eq_dupRef hout hdup])
  · intro cfg w n t d h
    exact (runPipeline_ok_elim h).1

/-- Instance of C7 at the scenario reference: the dict inverts row 2. -/
theorem C7_ref_index_witness :
    chrposToId scenarioRef (scenarioRef.get ⟨2, by decide⟩) = some 2 :=
  (C7_ref_index scenarioRef).2.1 (by decide) 2 (by decide)

/-- C8: with neither export requested the run stops at once with the
no-output ConfigurationError — nothing is printed, no file is touched,
whatever the environment holds; with at least one export requested that
error can never occur and processing begins with the reference read. -/
theorem C8_output_check (cfg : Config) (w : World) :
    (cfg.savemat = false → cfg.saveltm = false →
      make_ld_matrix cfg w = ([], .error .noOutputRequested)) ∧
    ((cfg.savemat || cfg.saveltm) = true →
      (make_ld_matrix cfg w).2 ≠ .error .noOutputRequested ∧
      ∃ rest, (make_ld_matrix cfg w).1 = "Reading ref..." :: rest) := by
  constructor
  · intro hsm hsl
    have h : runPipeline cfg w = ([], .error .noOutputRequested) :=
      runPipeline_eq_noOutput (by rw [hsm, hsl]; rfl)
    have h1 : (make_ld_matrix cfg w).1 = [] := by
      rw [make_ld_matrix_fst, h]
    have h2 : (make_ld_matrix cfg w).2 = .error .noOutputRequested :=
      make_ld_matrix_of_err (by rw [h])
    exact Prod.ext h1 h2
  · intro hreq
    obtain ⟨hne, rest, hrest⟩ := runPipeline_fst_of_requested hreq
    constructor
    · rw [ne_eq, make_ld_matrix_noOutput_iff]
      exact hne
    · rw [make_ld_matrix_fst]
      exact ⟨rest, hrest⟩

/-- Instance of C8: the configuration requesting nothing fails before
any I/O on the scenario environment. -/
theorem C8_output_check_witness :
    make_ld_matrix ⟨false, false, true, 1⟩ scenarioWorld
      = ([], .error .noOutputRequested) :=
  (C8_output_check ⟨false, false, true, 1⟩ scenarioWorld).1 rfl rfl

/-- C10 (implicit): with zero batches (an empty pairwise input) the
accumulator keeps its `None` sentinel and the run dies at the dedup step
with the `AttributeError` on `None.shape` — it does not produce an empty
collection or empty exports. -/
theorem C10_empty_input (cfg : Config) (w : World)
    (hreq : (cfg.savemat || cfg.saveltm) = true)
    (hdup : refHasDupKeys w.refRows = false)
    (hacq : (acquireRecords cfg w).2 = some []) :
    accumulate (chrposToId w.refRows) (chunkList cfg.chunksize []) = none ∧
    (make_ld_matrix cfg w).2 = .error .totalDfIsNone := by
  have hout : (!cfg.savemat && !cfg.saveltm) = false := by
    cases hsm : cfg.savemat <;> cases hsl : cfg.saveltm <;> simp_all
  have hacc : accumulate (chrposToId w.refRows) (chunkList cfg.chunksize [])
      = none := rfl
  exact ⟨hacc, make_ld_matrix_of_err
    (by rw [runPipeline_eq_noneTotal hout hdup hacq hacc])⟩

/-- Instance of C10: the scenario reference with an empty supplied LD
file dies with the `None.shape` error. -/
theorem C10_empty_input_witness :
    (make_ld_matrix ⟨true, true, true, 100000⟩
        ⟨scenarioRef, 0, "", none, some []⟩).2 = .error .totalDfIsNone :=
  (C10_empty_input ⟨true, true, true, 100000⟩
    ⟨scenarioRef, 0, "", none, some []⟩ rfl (by decide) rfl).2

/-- C5: a triplet with id1 > id2 reaching the Matrix Materializer makes
the lower-triangular export abort with the FormatAssumptionError (the
line 78 assert): the check runs before the intermediate matrix is built,
the error result carries no file contents, and through the full pipeline
a saveltm run over such a collection fails the same way, writing
nothing. -/
theorem C5_assert (nsnp : Nat) (t : List Triplet)
    (hbad : ∃ u ∈ t, u.id2 < u.id1) :
    saveltmExport nsnp t = .error .assertionFailed ∧
    (∀ (cfg : Config) (w : World), cfg.saveltm = true →
      dedupedCollection cfg w = .ok t →
      (make_ld_matrix cfg w).2 = .error .assertionFailed) := by
  obtain ⟨u, hu, hlt⟩ := hbad
  have hchk : ltmCheck t = false := by
    rw [ltmCheck]
    rw [List.all_eq_false]
    refine ⟨u, hu, ?_⟩
    simp only [decide_eq_true_eq]
    omega
  constructor
  · rw [saveltmExport, if_neg (by rw [hchk]; simp)]
  · intro cfg w hsl hded
    rw [dedupedCollection] at hded
    rcases hres : (runPipeline cfg w).2 with e | v
    · rw [hres] at hded
      cases hded
    · rcases v with ⟨n, t2, d⟩
      rw [hres] at hded
      simp only [Except.map] at hded
      rw [Except.ok.injEq] at hded
      rw [← hded] at hchk
      exact make_ld_matrix_of_ok_assert hres hsl hchk

/-- Instance of C5 at a one-triplet collection violating row < col. -/
theorem C5_assert_witness :
    saveltmExport 2 [⟨1, 0, mkRat 1 2⟩] = .error .assertionFailed :=
  (C5_assert 2 [⟨1, 0, mkRat 1 2⟩]
    ⟨⟨1, 0, mkRat 1 2⟩, by decide, by decide⟩).1

/-- C6: per batch the resolver emits exactly one triplet — carrying the
two resolved indices and the record value — per record whose endpoints
are both present in the reference, zero triplets for a record with an
absent endpoint (absence is not an error, just a silent discard), the
batch emission is the in-order concatenation of per-record emissions,
and the discard count is records-in minus records with both endpoints
resolved. -/
theorem C6_resolver (lk : Nat × Nat → Option Nat) (df : List LdRecord) :
    (∀ (r : LdRecord) (i1 i2 : Nat), lk (r.chrA, r.bpA) = some i1 →
      lk (r.chrB, r.bpB) = some i2 →
      resolveChunk lk [r] = [⟨i1, i2, r.r2⟩]) ∧
    (∀ r : LdRecord, bothPresent lk r = false → resolveChunk lk [r] = []) ∧
    resolveChunk lk df = (df.map (fun r => resolveChunk lk [r])).flatten ∧
    (resolveChunk lk df).length = df.countP (bothPresent lk) ∧
    df.length - (resolveChunk lk df).length
      = df.countP (fun r => !bothPresent lk r) := by
  refine ⟨?_, ?_, resolveChunk_eq_join lk df, resolveChunk_length lk df, ?_⟩
  · intro r i1 i2 h1 h2
    have hmk : mkTriplet? lk r = some ⟨i1, i2, r.r2⟩ := by
      rw [mkTriplet?, h1, h2]
    simp [resolveChunk, List.filterMap_cons, hmk]
  · intro r hbp
    have hmk : mkTriplet? lk r = none := by
      have hs := mkTriplet?_isSome lk r
      rw [hbp] at hs
      exact Option.not_isSome_iff_eq_none.mp (by rw [hs]; simp)
    simp [resolveChunk, List.filterMap_cons, hmk]
  · rw [resolveChunk_length]
    exact length_sub_countP (bothPresent lk) df

/-- Instance of C6: the first scenario record resolves to the (0,1)
triplet. -/
theorem C6_resolver_witness :
    resolveChunk (chrposToId scenarioRef) [⟨1, 100, 1, 200, mkRat 1 2⟩]
      = [⟨0, 1, mkRat 1 2⟩] :=
  (C6_resolver (chrposToId scenarioRef) scenarioRecords).1
    ⟨1, 100, 1, 200, mkRat 1 2⟩ 0 1 (by decide) (by decide)

/-- C2: deduplication is on the ordered pair (id1, id2), order-stable
and first-seen-wins across chunk boundaries: whenever the input stream
holds two or more records resolving to the same pair k, the deduplicated
collection holds exactly one triplet for k, and its value is the value
of the earliest such record of the whole stream; every successful run
prints the number of triplets removed. -/
theorem C2_dedup (lk : Nat × Nat → Option Nat)
    (chunks : List (List LdRecord)) (total : List Triplet) (k : Nat × Nat)
    (hacc : accumulate lk chunks = some total)
    (hstream : 2 ≤ (chunks.flatten).countP (fun r => resolvesTo lk r k)) :
    (drop_duplicates total).countP (fun t => keyOf t == k) = 1 ∧
    ((drop_duplicates total).find? (fun t => keyOf t == k)).map Triplet.val
      = ((chunks.flatten).find? (fun r => resolvesTo lk r k)).map LdRecord.r2 ∧
    (∀ (cfg : Config) (w : World) (n : Nat) (t : List Triplet) (d : Nat),
      (runPipeline cfg w).2 = .ok (n, t, d) →
      ("Drop " ++ toString d ++ " duplicated entries")
        ∈ (runPipeline cfg w).1) := by
  have hne : chunks ≠ [] := by
    intro hc
    rw [hc, accumulate_nil] at hacc
    cases hacc
  have htot : total = resolveChunk lk chunks.flatten := by
    have h2 := accumulate_eq_of_ne_nil lk hne
    rw [hacc] at h2
    injection h2
  refine ⟨?_, ?_, fun cfg w n t d h => runPipeline_drop_reported h⟩
  · rw [drop_duplicates_countP, htot, resolveChunk_countP]
    omega
  · rw [drop_duplicates_find?, htot, resolveChunk_find?]
    have hpos : 0 < (chunks.flatten).countP (fun r => resolvesTo lk r k) := by
      omega
    have hfs : ((chunks.flatten).find? (fun r => resolvesTo lk r k)).isSome := by
      rw [List.find?_isSome]
      obtain ⟨r0, hr0mem, hr0p⟩ := List.countP_pos.mp hpos
      exact ⟨r0, hr0mem, hr0p⟩
    obtain ⟨r1, hr1⟩ := Option.isSome_iff_exists.mp hfs
    rw [hr1]
    have hp1 : resolvesTo lk r1 k = true := by
      have h3 := List.find?_some hr1
      exact h3
    cases hmk : mkTriplet? lk r1 with
    | none =>
      rw [resolvesTo, hmk] at hp1
      cases hp1
    | some t1 =>
      simp [hmk, mkTriplet?_val hmk]

/-- Instance of C2 on the round-trip scenario: pair (0,1) keeps its
first-seen value 1/2. -/
theorem C2_dedup_witness :
    ((drop_duplicates scenarioTotal).find?
        (fun t => keyOf t == ((0 : Nat), (1 : Nat)))).map Triplet.val
      = some (mkRat 1 2) := by
  have h := C2_dedup (chrposToId scenarioRef) (chunkList 100000 scenarioRecords)
    scenarioTotal (0, 1) (by with_unfolding_all rfl) (by decide)
  rw [h.2.1]
  with_unfolding_all rfl

/-- C3: chunk-size invariance — over the same environment, the
post-loader outcome, in particular the final deduplicated triplet
collection, is identical for any two positive chunk sizes. -/
theorem C3_chunk_invariance (sm sl lg : Bool) (w : World) (c1 c2 : Nat)
    (h1 : 0 < c1) (h2 : 0 < c2) :
    dedupedCollection ⟨sm, sl, lg, c1⟩ w
      = dedupedCollection ⟨sm, sl, lg, c2⟩ w := by
  rw [dedupedCollection, dedupedCollection]
  by_cases hout : (!sm && !sl) = true
  · have e1 : runPipeline ⟨sm, sl, lg, c1⟩ w = ([], .error .noOutputRequested) :=
      runPipeline_eq_noOutput hout
    have e2 : runPipeline ⟨sm, sl, lg, c2⟩ w = ([], .error .noOutputRequested) :=
      runPipeline_eq_noOutput hout
    rw [e1, e2]
  · have hout2 : (!sm && !sl) = false := by
      revert hout
      cases (!sm && !sl) <;> simp
    by_cases hdup : refHasDupKeys w.refRows = true
    · have e1 : runPipeline ⟨sm, sl, lg, c1⟩ w
          = (["Reading ref..."], .error .duplicatedRefKeys) :=
        runPipeline_eq_dupRef hout2 hdup
      have e2 : runPipeline ⟨sm, sl, lg, c2⟩ w
          = (["Reading ref..."], .error .duplicatedRefKeys) :=
        runPipeline_eq_dupRef hout2 hdup
      rw [e1, e2]
    · have hdup2 : refHasDupKeys w.refRows = false := by
        revert hdup
        cases refHasDupKeys w.refRows <;> simp
      have hacqeq : acquireRecords ⟨sm, sl, lg, c2⟩ w
          = acquireRecords ⟨sm, sl, lg, c1⟩ w := rfl
      cases hacq : (acquireRecords ⟨sm, sl, lg, c1⟩ w).2 with
      | none =>
        have e1 := runPipeline_eq_fileMissing hout2 hdup2 hacq
        have e2 := runPipeline_eq_fileMissing hout2 hdup2
          (by rw [hacqeq]; exact hacq)
        rw [e1, e2]
      | some records =>
        have hacq2 : (acquireRecords ⟨sm, sl, lg, c2⟩ w).2 = some records := by
          rw [hacqeq]
          exact hacq
        by_cases hrec : records = []
        · subst hrec
          have hacc1 : accumulate (chrposToId w.refRows) (chunkList c1 [])
              = none := rfl
          have hacc2 : accumulate (chrposToId w.refRows) (chunkList c2 [])
              = none := rfl
          have e1 := runPipeline_eq_noneTotal hout2 hdup2 hacq hacc1
          have e2 := runPipeline_eq_noneTotal hout2 hdup2 hacq2 hacc2
          rw [e1, e2]
        · have hacc1 : accumulate (chrposToId w.refRows) (chunkList c1 records)
              = some (resolveChunk (chrposToId w.refRows) records) := by
            rw [accumulate_chunkList _ h1, if_neg hrec]
          have hacc2 : accumulate (chrposToId w.refRows) (chunkList c2 records)
              = some (resolveChunk (chrposToId w.refRows) records) := by
            rw [accumulate_chunkList _ h2, if_neg hrec]
          have e1 := runPipeline_eq_ok hout2 hdup2 hacq hacc1
          have e2 := runPipeline_eq_ok hout2 hdup2 hacq2 hacc2
          rw [e1, e2]

/-- Instance of C3: chunk sizes 1 and 100000 agree on the scenario. -/
theorem C3_chunk_invariance_witness :
    dedupedCollection ⟨true, true, true, 1⟩ scenarioWorld
      = dedupedCollection ⟨true, true, true, 100000⟩ scenarioWorld :=
  C3_chunk_invariance true true true scenarioWorld 1 100000 (by decide) (by decide)

/-- C1 (amended): over a deduplicated in-range collection with row < col
and N ≥ 1, the export passes the assert and writes exactly N lines:
line 1 is "1.0", and line i+1 (for i = 1..N-1) is the tab-join of the
renderings of the stored correlation for pair (j, i), j = 0..i-1 — a pair
absent from the collection rendering as "0.0", the textual form of the
float zero — followed by a tab and "1.0"; in the 4-variant round-trip
scenario line 4 is "0.0\t0.0\t0.0\t1.0".  (The original claim's "0" and
"0\t0\t0\t1.0" do not match the code, which prints str(0.0) = "0.0".) -/
theorem C1_ltm (nsnp : Nat) (t : List Triplet) (hn : 1 ≤ nsnp)
    (hlow : ∀ u ∈ t, u.id1 < u.id2 ∧ u.id2 < nsnp)
    (hnd : (t.map keyOf).Nodup) :
    saveltmExport nsnp t = .ok (ltmLines nsnp t) ∧
    (ltmLines nsnp t).length = nsnp ∧
    ltmLines nsnp t = "1.0" :: (List.range' 1 (nsnp - 1)).map (fun i =>
      String.intercalate "\t"
        ((List.range i).map (fun j => pyFloatStr (storedValue t j i)))
        ++ "\t1.0") ∧
    ((make_ld_matrix scenarioCfg scenarioWorld).2.map Output.ltm)
      = .ok (some ["1.0", "0.5\t1.0", "0.9\t0.2\t1.0", "0.0\t0.0\t0.0\t1.0"]) := by
  have hchk : ltmCheck t = true := by
    rw [ltmCheck, List.all_eq_true]
    intro u hu
    simp only [decide_eq_true_eq]
    exact (hlow u hu).1
  refine ⟨?_, ?_, ?_, ?_⟩
  · rw [saveltmExport, if_pos hchk]
  · rw [ltmLines]
    simp only [List.length_cons, List.length_map, List.length_range']
    omega
  · rw [ltmLines]
    have hfun : (fun i => String.intercalate "\t"
        ((List.range i).map (fun j => pyFloatStr (csrEntry t i j))) ++ "\t1.0")
      = (fun i => String.intercalate "\t"
        ((List.range i).map (fun j => pyFloatStr (storedValue t j i))) ++ "\t1.0") := by
      funext i
      have hg : (fun j => pyFloatStr (csrEntry t i j))
          = (fun j => pyFloatStr (storedValue t j i)) := by
        funext j
        rw [csrEntry_eq_storedValue i j t hnd]
      rw [hg]
    rw [hfun]
  · with_unfolding_all rfl

/-- C1 is refuted on the round-trip scenario: the produced fourth line is
"0.0\t0.0\t0.0\t1.0", not the claimed "0\t0\t0\t1.0". -/
theorem C1_ltm_counterexample :
    ((make_ld_matrix scenarioCfg scenarioWorld).2.map
        (fun o => o.ltm.map (fun ls => ls.get? 3)))
      = .ok (some (some "0.0\t0.0\t0.0\t1.0")) ∧
    ("0.0\t0.0\t0.0\t1.0" : String) ≠ "0\t0\t0\t1.0" :=
  ⟨by with_unfolding_all rfl, by decide⟩

/-- Instance of C1 (amended) at the scenario's deduplicated collection. -/
theorem C1_ltm_witness :
    saveltmExport 4 (drop_duplicates scenarioTotal)
      = .ok (ltmLines 4 (drop_duplicates scenarioTotal)) :=
  (C1_ltm 4 (drop_duplicates scenarioTotal) (by decide) (by decide)
    (by decide)).1

/-- C4: the sparse export emits the deduplicated collection verbatim —
index columns shifted to 1-based, values unmodified, nsnp the reference
row count — and the full scenario run yields exactly
id1=[1,1,2], id2=[2,3,3], val=[1/2,9/10,1/5], nsnp=4 alongside the ltm
lines. -/
theorem C4_sparse_export :
    (∀ (cfg : Config) (w : World) (out : Output),
      cfg.savemat = true → (make_ld_matrix cfg w).2 = .ok out →
      ∃ t, dedupedCollection cfg w = .ok t ∧
        out.mat = some (t.map (fun u => u.id1 + 1), t.map (fun u => u.id2 + 1),
          t.map Triplet.val, w.refRows.length)) ∧
    (make_ld_matrix scenarioCfg scenarioWorld).2 = .ok
      ⟨some ["1.0", "0.5\t1.0", "0.9\t0.2\t1.0", "0.0\t0.0\t0.0\t1.0"],
       some ([1, 1, 2], [2, 3, 3], [mkRat 1 2, mkRat 9 10, mkRat 1 5], 4)⟩ := by
  constructor
  · intro cfg w out hsm hok
    rcases hres : (runPipeline cfg w).2 with e | v
    · rw [make_ld_matrix_of_err hres] at hok
      cases hok
    · rcases v with ⟨n, t, d⟩
      by_cases hpass : (cfg.saveltm && !ltmCheck t) = true
      · have hsl : cfg.saveltm = true := by
          cases hq : cfg.saveltm
          · rw [hq] at hpass
            simp at hpass
          · rfl
        have hchk : ltmCheck t = false := by
          cases hq : ltmCheck t
          · rfl
          · rw [hq] at hpass
            simp at hpass
        rw [make_ld_matrix_of_ok_assert hres hsl hchk] at hok
        cases hok
      · have hpass2 : (cfg.saveltm && !ltmCheck t) = false := by
          revert hpass
          cases (cfg.saveltm && !ltmCheck t) <;> simp
        rw [make_ld_matrix_of_ok_pass hres hpass2] at hok
        rw [Except.ok.injEq] at hok
        refine ⟨t, ?_, ?_⟩
        · rw [dedupedCollection, hres]
          rfl
        · rw [← hok]
          have hn := (runPipeline_ok_elim hres).1
          simp [savematExport, hsm, hn]
  · with_unfolding_all rfl

/-- Instance of C4's general clause at the scenario run. -/
theorem C4_sparse_export_witness :
    ∃ t, dedupedCollection scenarioCfg scenarioWorld = .ok t ∧
      (Output.mat ⟨some ["1.0", "0.5\t1.0", "0.9\t0.2\t1.0",
          "0.0\t0.0\t0.0\t1.0"],
        some ([1, 1, 2], [2, 3, 3], [mkRat 1 2, mkRat 9 10, mkRat 1 5], 4)⟩)
        = some (t.map (fun u => u.id1 + 1), t.map (fun u => u.id2 + 1),
            t.map Triplet.val, scenarioWorld.refRows.length) :=
  C4_sparse_export.1 scenarioCfg scenarioWorld _ rfl C4_sparse_export.2

/-- C9 (amended): when plink is invoked (no --ldfile supplied), its
merged stdout/stderr is printed for diagnosis whatever else happens; the
run fails — with the file-not-found error raised when tmp.ld.gz is read
at line 52, the only failure the code can notice — exactly if that file
is absent; and the command's exit status is never consulted: the whole
result is invariant under it.  (The original claim's "if the external
command fails ... the loader fails" does not hold: a failing command
whose output file exists, e.g. stale from an earlier run, is processed
without any error.) -/
theorem C9_upstream (cfg : Config) (w : World)
    (hld : cfg.ldfileGiven = false)
    (hreq : (cfg.savemat || cfg.saveltm) = true)
    (hdup : refHasDupKeys w.refRows = false) :
    w.extOutput ∈ (make_ld_matrix cfg w).1 ∧
    (w.tmpLd = none → (make_ld_matrix cfg w).2 = .error .ldFileMissing) ∧
    (∀ e1 e2 : Nat,
      make_ld_matrix cfg ⟨w.refRows, e1, w.extOutput, w.tmpLd, w.ldfileRecords⟩
        = make_ld_matrix cfg
            ⟨w.refRows, e2, w.extOutput, w.tmpLd, w.ldfileRecords⟩) := by
  refine ⟨?_, ?_, fun e1 e2 => rfl⟩
  · rw [make_ld_matrix_fst]
    obtain ⟨rest, hrest⟩ := runPipeline_fst_extends_acquire hreq hdup
    rw [hrest]
    refine List.mem_append.mpr (Or.inl ?_)
    simp [acquireRecords, hld]
  · intro htmp
    have hout : (!cfg.savemat && !cfg.saveltm) = false := by
      cases hsm : cfg.savemat <;> cases hsl : cfg.saveltm <;> simp_all
    have hacq : (acquireRecords cfg w).2 = none := by
      simp [acquireRecords, hld, htmp]
    exact make_ld_matrix_of_err
      (by rw [runPipeline_eq_fileMissing hout hdup hacq])

/-- C9 is refuted: in `failedPlinkWorld` the plink invocation exits with
status 1, yet — a (stale) tmp.ld.gz being present — the run raises no
error at all and writes the sparse export. -/
theorem C9_upstream_counterexample :
    failedPlinkWorld.extExitCode = 1 ∧
    (make_ld_matrix noLdfileCfg failedPlinkWorld).2
      = .ok ⟨none, some ([1], [2], [mkRat 1 2], 2)⟩ :=
  ⟨rfl, by with_unfolding_all rfl⟩

/-- Instance of C9 (amended): with no tmp.ld.gz left behind the run
fails with the file-not-found error. -/
theorem C9_upstream_witness :
    (make_ld_matrix noLdfileCfg missingTmpWorld).2 = .error .ldFileMissing :=
  (C9_upstream noLdfileCfg missingTmpWorld rfl rfl (by decide)).2.1 rfl

end LdMat
